import Mathlib

/-!
Verification of the aggregation-and-remediation pipeline
(`scripts/parse_sarif.py`, `scripts/apply_fixes.py`).

The development is a shallow embedding of the Python sources:

* file contents and Python strings are modelled as `List Char` (`PyStr`);
* the filesystem is an association list from path names to contents;
* `readlines` / `writelines` are modelled by `linesOf` / `List.join`
  (text-mode files whose line separator is a single newline character);
* Python exceptions are modelled with `Except PyErr`;
* JSON values are modelled by the inductive `Json` (numbers as integers).

Every definition follows the corresponding Python function; comments point
to the behaviour being embedded.
-/

/-- Python strings / file contents, as lists of characters. -/
abbrev PyStr := List Char

/-- The filesystem: an association list from path names to file contents.
The first binding for a name wins, as in `fsGet`. -/
abbrev FS := List (String × PyStr)

/-- Read a file: the content bound to the first occurrence of the name. -/
def fsGet : FS → String → Option PyStr
  | [], _ => none
  | (k, v) :: r, n => if k = n then some v else fsGet r n

/-- Write a file (create or overwrite): replace the first binding for the
name, or append a fresh binding when the name is absent. -/
def fsSet : FS → String → PyStr → FS
  | [], n, v => [(n, v)]
  | (k, w) :: r, n, v => if k = n then (n, v) :: r else (k, w) :: fsSet r n v

/-- Append to a file, creating it when absent (Python `open(path, 'a')`). -/
def fsAppend (fs : FS) (n : String) (text : PyStr) : FS :=
  fsSet fs n (((fsGet fs n).getD []) ++ text)

theorem fsGet_fsSet_self (fs : FS) (n : String) (v : PyStr) :
    fsGet (fsSet fs n v) n = some v := by
  induction fs with
  | nil => simp [fsGet, fsSet]
  | cons kv r ih =>
    obtain ⟨k, w⟩ := kv
    by_cases h : k = n <;> simp [fsGet, fsSet, h, ih]

theorem fsGet_fsSet_ne (fs : FS) {n m : String} (h : n ≠ m) (v : PyStr) :
    fsGet (fsSet fs n v) m = fsGet fs m := by
  induction fs with
  | nil => simp [fsGet, fsSet, h]
  | cons kv r ih =>
    obtain ⟨k, w⟩ := kv
    by_cases hk : k = n
    · subst hk
      simp [fsGet, fsSet, h]
    · simp [fsGet, fsSet, hk, ih]

/-- No path equals itself with a suffix appended: used for `<file>.backup`. -/
theorem ne_append_backup (s : String) : s ≠ s ++ ".backup" := by
  intro h
  have hl := congrArg String.length h
  rw [String.length_append] at hl
  rw [show (".backup" : String).length = 7 from rfl] at hl
  omega

/-! ### Python `readlines` / `writelines`

`f.readlines()` splits the content after every newline character and keeps
the separators; a final fragment without a newline is still a line.
`f.writelines(lines)` concatenates the lines verbatim. -/

/-- Worker for `linesOf`: `acc` holds the (reversed) characters of the
line being accumulated. -/
def linesOfAux : List Char → List Char → List PyStr
  | [], acc => if acc.isEmpty then [] else [acc.reverse]
  | c :: cs, acc =>
    if c = '\n' then (acc.reverse ++ ['\n']) :: linesOfAux cs []
    else linesOfAux cs (c :: acc)

/-- Python `f.readlines()` on content `s`. -/
def linesOf (s : PyStr) : List PyStr := linesOfAux s []

/-- Python `f.writelines(ls)`: concatenation. -/
def joinLines (ls : List PyStr) : PyStr := ls.flatten

/-- A fully terminated line: some newline-free text plus the separator. -/
def lineChunk (l : PyStr) : Prop := ∃ m, l = m ++ ['\n'] ∧ '\n' ∉ m

/-- The shape of any `readlines` output: every line is newline-terminated
with no interior newline, except that the final line may lack the
terminator; every line is nonempty. -/
def goodChunks : List PyStr → Prop
  | [] => True
  | [l] => l ≠ [] ∧ '\n' ∉ l.dropLast
  | l :: l' :: ls => lineChunk l ∧ goodChunks (l' :: ls)

theorem goodChunks_cons_of_lineChunk {l : PyStr} {ls : List PyStr}
    (hl : lineChunk l) (hls : goodChunks ls) : goodChunks (l :: ls) := by
  obtain ⟨m, rfl, hm⟩ := hl
  cases ls with
  | nil =>
    refine ⟨by simp, ?_⟩
    simpa using hm
  | cons l' r => exact ⟨⟨m, rfl, hm⟩, hls⟩

theorem linesOfAux_append_newline {m : PyStr} (hm : '\n' ∉ m) :
    ∀ (rest acc : List Char),
      linesOfAux (m ++ '\n' :: rest) acc
        = (acc.reverse ++ m ++ ['\n']) :: linesOfAux rest [] := by
  induction m with
  | nil => intro rest acc; simp [linesOfAux]
  | cons c m' ih =>
    intro rest acc
    have hc : c ≠ '\n' := by
      intro h; exact hm (by simp [h])
    have hm' : '\n' ∉ m' := fun h => hm (by simp [h])
    simp only [List.cons_append, linesOfAux, if_neg hc]
    rw [show m'.append ('\n' :: rest) = m' ++ '\n' :: rest from rfl,
      ih hm' rest (c :: acc)]
    simp

theorem linesOfAux_no_newline {l : PyStr} (hl : '\n' ∉ l) :
    ∀ acc : List Char, acc.reverse ++ l ≠ [] →
      linesOfAux l acc = [acc.reverse ++ l] := by
  induction l with
  | nil =>
    intro acc hne
    simp only [List.append_nil] at hne
    have hacc : acc.isEmpty = false := by
      cases acc with
      | nil => simp at hne
      | cons a r => rfl
    simp [linesOfAux, hacc]
  | cons c cs ih =>
    intro acc _
    have hc : c ≠ '\n' := by
      intro h; exact hl (by simp [h])
    have hcs : '\n' ∉ cs := fun h => hl (by simp [h])
    simp only [linesOfAux, if_neg hc]
    rw [ih hcs (c :: acc) (by simp)]
    simp

/-- `readlines` is a left inverse of `writelines` on well-shaped line
lists. -/
theorem linesOf_join : ∀ ls : List PyStr, goodChunks ls →
    linesOf (joinLines ls) = ls
  | [], _ => by simp [linesOf, joinLines, linesOfAux]
  | [l], h => by
    obtain ⟨hne, hdrop⟩ := h
    by_cases hlast : l.getLast hne = '\n'
    · have hform : l.dropLast ++ ['\n'] = l := by
        rw [← hlast]; exact List.dropLast_append_getLast hne
      have : linesOf l = [l] := by
        unfold linesOf
        rw [← hform, linesOfAux_append_newline hdrop [] []]
        simp [linesOfAux, hform]
      simpa [joinLines] using this
    · have hnl : '\n' ∉ l := by
        intro hmem
        have hsplit := List.dropLast_append_getLast hne
        have hmem' : '\n' ∈ l.dropLast ++ [l.getLast hne] := by
          rw [hsplit]; exact hmem
        rcases List.mem_append.1 hmem' with h1 | h1
        · exact hdrop h1
        · have h1' : '\n' = l.getLast hne := by simpa using h1
          exact hlast h1'.symm
      have : linesOf l = [l] := by
        unfold linesOf
        rw [linesOfAux_no_newline hnl [] (by simpa using hne)]
        simp
      simpa [joinLines] using this
  | l :: l' :: ls, h => by
    obtain ⟨⟨m, rfl, hm⟩, h2⟩ := h
    have ih := linesOf_join (l' :: ls) h2
    unfold linesOf joinLines at ih ⊢
    have hstep : (m ++ ['\n']) ++ (l' :: ls).flatten
        = m ++ '\n' :: (l' :: ls).flatten := by
      simp
    rw [List.flatten_cons, hstep, linesOfAux_append_newline hm _ []]
    simpa using ih

theorem goodChunks_linesOfAux :
    ∀ (s : List Char) (acc : List Char), '\n' ∉ acc →
      goodChunks (linesOfAux s acc) := by
  intro s
  induction s with
  | nil =>
    intro acc hacc
    by_cases h : acc.isEmpty
    · simp [linesOfAux, h, goodChunks]
    · simp only [linesOfAux, h, if_false]
      refine ⟨by simpa [List.isEmpty_iff] using h, ?_⟩
      intro hmem
      exact hacc (by simpa using List.dropLast_subset _ hmem)
  | cons c cs ih =>
    intro acc hacc
    by_cases hc : c = '\n'
    · subst hc
      simp only [linesOfAux, if_pos rfl]
      refine goodChunks_cons_of_lineChunk ⟨acc.reverse, rfl, by simpa using hacc⟩ ?_
      exact ih [] (by simp)
    · simp only [linesOfAux, if_neg hc]
      exact ih (c :: acc) (by simp [hacc, Ne.symm hc])

/-- Any `readlines` result is well shaped. -/
theorem goodChunks_linesOf (s : PyStr) : goodChunks (linesOf s) :=
  goodChunks_linesOfAux s [] (by simp)

/-- Replacing any line by a terminated, newline-free line keeps the line
list well shaped. -/
theorem goodChunks_set : ∀ (ls : List PyStr), goodChunks ls →
    ∀ {v : PyStr}, lineChunk v → ∀ i : Nat, goodChunks (ls.set i v)
  | [], _, _, _, _ => by simp [goodChunks]
  | [l], h, v, hv, i => by
    cases i with
    | zero =>
      obtain ⟨m, rfl, hm⟩ := hv
      exact ⟨by simp, by simpa using hm⟩
    | succ j => simpa [goodChunks] using h
  | l :: l' :: ls, h, v, hv, i => by
    obtain ⟨hl, h2⟩ := h
    cases i with
    | zero => exact goodChunks_cons_of_lineChunk hv h2
    | succ j =>
      have := goodChunks_set (l' :: ls) h2 hv j
      simp only [List.set]
      cases hset : (l' :: ls).set j v with
      | nil => simp at hset
      | cons a r =>
        rw [hset] at this
        exact ⟨hl, this⟩

/-! ## The Fix Applier (`scripts/apply_fixes.py`)

`FixApplier` keeps two growing lists, `applied_fixes` and `failed_fixes`,
and a `dry_run` flag.  We model the mutable pieces of a run as a state
`St` (filesystem plus the two lists) and pass `dry_run` explicitly. -/

/-- An entry of `self.applied_fixes` (the dicts appended by the three
`apply_*` methods). -/
inductive Applied where
  | sast (file : String) (line : Int) (description : PyStr)
  | dependency (package oldVersion newVersion description : PyStr)
  | dastConfig (file : String)
  | dastCode (file : String)
deriving DecidableEq

/-- An entry of `self.failed_fixes`; constructors mirror the message
strings appended by `apply_fixes.py` (the interpolated exception text is
abstracted away). -/
inductive Failed where
  | fileNotFound (file : String)
  | invalidLine (file : String)
  | errorIn (file : String)
  | requirementsNotFound
  | packageNotFound (package : PyStr)
  | errorUpdating (package : PyStr)
  | unexpected
deriving DecidableEq

/-- The mutable state of a `FixApplier` run. -/
structure St where
  fs : FS
  applied : List Applied
  failed : List Failed
deriving DecidableEq

/-- Python list indexing `l[i]` with negative-index wrap-around; `none`
models an `IndexError`. -/
def pyGetIdx (l : List PyStr) (i : Int) : Option PyStr :=
  if 0 ≤ i then l.get? i.toNat
  else if 0 ≤ (l.length : Int) + i then l.get? ((l.length : Int) + i).toNat
  else none

/-- Python list assignment `l[i] = v` for an index already validated by
`pyGetIdx` (negative indices count from the end). -/
def pySetIdx (l : List PyStr) (i : Int) (v : PyStr) : List PyStr :=
  if 0 ≤ i then l.set i.toNat v
  else l.set ((l.length : Int) + i).toNat v

/-- Payload of a SAST fix (`fix['file']`, `fix['line']`,
`fix['fixed_code']`, `fix['explanation']`). -/
structure SastFix where
  file : String
  line : Int
  fixed_code : PyStr
  explanation : PyStr
deriving DecidableEq

/-- `FixApplier.apply_sast_fix` (apply_fixes.py lines 27-91).

Control flow embedded: missing file → record failure, `False`; in execute
mode copy `<file>.backup` *before* reading or validating; reject
`line_number > len(lines)`; printing `lines[line_number-1]` raises
`IndexError` for an index below `-len(lines)`, which the `except` block
turns into a failure; otherwise in execute mode assign
`lines[line_number-1] = fixed_code + '\n'` and write the file back. -/
def apply_sast_fix (dryRun : Bool) (fix : SastFix) (st : St) : St × Bool :=
  match fsGet st.fs fix.file with
  | none => ({ st with failed := st.failed ++ [Failed.fileNotFound fix.file] }, false)
  | some content =>
    let fs1 := if dryRun then st.fs
               else fsSet st.fs (fix.file ++ ".backup") content
    let lines := linesOf content
    if ((lines.length : Int)) < fix.line then
      ({ st with fs := fs1,
                 failed := st.failed ++ [Failed.invalidLine fix.file] }, false)
    else
      match pyGetIdx lines (fix.line - 1) with
      | none =>
        ({ st with fs := fs1,
                   failed := st.failed ++ [Failed.errorIn fix.file] }, false)
      | some _ =>
        let lines' := if dryRun then lines
                      else pySetIdx lines (fix.line - 1) (fix.fixed_code ++ ['\n'])
        let fs2 := if dryRun then fs1 else fsSet fs1 fix.file (joinLines lines')
        ({ st with fs := fs2,
                   applied := st.applied
                     ++ [Applied.sast fix.file fix.line fix.explanation] }, true)

/-- Python whitespace for `str.strip()`. -/
def pyIsSpace (c : Char) : Bool :=
  c = ' ' || c = '\t' || c = '\n' || c = '\r' || c = '\x0b' || c = '\x0c'

/-- Python `str.strip()`: drop whitespace from both ends. -/
def pyStrip (s : PyStr) : PyStr :=
  ((s.dropWhile pyIsSpace).reverse.dropWhile pyIsSpace).reverse

/-- The regex test `re.match(f'^{re.escape(package)}[>=<!=]+', line)`
(apply_fixes.py line 130): the line starts with the package name followed
immediately by at least one character of the class `> = < !`. -/
def depMatches (package line : PyStr) : Bool :=
  package.isPrefixOf line &&
    match line.drop package.length with
    | [] => false
    | c :: _ => c = '>' || c = '=' || c = '<' || c = '!'

/-- Payload of a dependency fix. -/
structure DepFix where
  package : PyStr
  current_version : PyStr
  recommended_version : PyStr
  explanation : PyStr
deriving DecidableEq

/-- The normalized entry `f"{package}>={recommended_version}"`. -/
def depEntry (fix : DepFix) : PyStr :=
  fix.package ++ ('>' :: '=' :: []) ++ fix.recommended_version

/-- The `for i, line in enumerate(lines)` search loop of
`apply_dependency_fix` (lines 126-141): on the first line whose stripped
text matches, replace it (execute mode) and stop (`break`); returns the
updated lines and the `updated` flag. -/
def depLoop (dryRun : Bool) (package newLine : PyStr) :
    List PyStr → List PyStr × Bool
  | [] => ([], false)
  | l :: ls =>
    if depMatches package (pyStrip l) then
      ((if dryRun then l else newLine ++ ['\n']) :: ls, true)
    else
      let r := depLoop dryRun package newLine ls
      (l :: r.1, r.2)

/-- `FixApplier.apply_dependency_fix` (apply_fixes.py lines 93-180).

Missing `requirements.txt` → failure; execute mode backs the manifest up
first; the search loop replaces the first matching line, otherwise the
new entry is appended; `updated` is forced to `True` by the append
branch, so the `Package not found` branch (lines 172-175) is dead code
and the method returns `True` whenever the manifest exists. -/
def apply_dependency_fix (dryRun : Bool) (fix : DepFix) (st : St) : St × Bool :=
  match fsGet st.fs "requirements.txt" with
  | none => ({ st with failed := st.failed ++ [Failed.requirementsNotFound] }, false)
  | some content =>
    let fs1 := if dryRun then st.fs
               else fsSet st.fs "requirements.txt.backup" content
    let lines := linesOf content
    let r := depLoop dryRun fix.package (depEntry fix) lines
    let lines2 := if r.2 then r.1
                  else if dryRun then r.1 else r.1 ++ [depEntry fix ++ ['\n']]
    let fs2 := if dryRun then fs1 else fsSet fs1 "requirements.txt" (joinLines lines2)
    ({ st with fs := fs2,
               applied := st.applied
                 ++ [Applied.dependency fix.package fix.current_version
                       fix.recommended_version fix.explanation] }, true)

/-- Payload of a DAST fix. Fields hold the values after the `dict.get`
defaults of apply_fixes.py lines 189-191 have been resolved
(`fix_type` defaults to `'code_change'`, `changes` to `''`,
`files_to_modify` to `[]`). -/
structure DastFix where
  fix_type : PyStr
  changes : PyStr
  files_to_modify : List PyStr
  message : PyStr
  url : PyStr
  explanation : PyStr
  confidence : PyStr
  generated_at : PyStr
deriving DecidableEq

/-- The markdown block appended for a `config_change` DAST fix
(apply_fixes.py lines 202-223). -/
def configRecommendation (fix : DastFix) : PyStr :=
  ("\n# Security Configuration Recommendation\n\n## Issue\n").data
    ++ fix.message
    ++ ("\n\n## Affected URL\n").data
    ++ fix.url
    ++ ("\n\n## Recommended Changes\n").data
    ++ fix.changes
    ++ ("\n\n## Files to Review\n").data
    ++ (if fix.files_to_modify.isEmpty then ("Configuration files").data
        else List.intercalate ((", ").data) fix.files_to_modify)
    ++ ("\n\n## Implementation Notes\n- Review these changes carefully before applying\n- Test in a staging environment first\n- Some changes may require server restart\n\nGenerated: ").data
    ++ fix.generated_at
    ++ ("\n").data

/-- The markdown block appended for a `code_change` DAST fix with no
`files_to_modify` (apply_fixes.py lines 251-274). -/
def codeRecommendation (fix : DastFix) : PyStr :=
  ("\n# Security Code Fix Recommendation\n\n## Issue\n").data
    ++ fix.message
    ++ ("\n\n## Affected URL\n").data
    ++ fix.url
    ++ ("\n\n## Code Changes Needed\n```\n").data
    ++ fix.changes
    ++ ("\n```\n\n## Explanation\n").data
    ++ fix.explanation
    ++ ("\n\n## AI Confidence\n").data
    ++ fix.confidence
    ++ ("\n\nGenerated: ").data
    ++ fix.generated_at
    ++ ("\n\n---\n").data

/-- `FixApplier.apply_dast_fix` (apply_fixes.py lines 182-293).

`config_change` appends to `security-config-recommendations.md` and
returns `True`; `code_change` with an empty `files_to_modify` appends to
`security-code-recommendations.md` and returns `True`; every other path
(including `code_change` with a nonempty `files_to_modify`) falls
through to the final `return False` at line 293 without touching the
filesystem or `failed_fixes`. -/
def apply_dast_fix (dryRun : Bool) (fix : DastFix) (st : St) : St × Bool :=
  if fix.fix_type = ("config_change").data then
    let fs' := if dryRun then st.fs
               else fsAppend st.fs "security-config-recommendations.md"
                      (configRecommendation fix)
    ({ st with fs := fs',
               applied := st.applied
                 ++ [Applied.dastConfig "security-config-recommendations.md"] }, true)
  else if fix.fix_type = ("code_change").data then
    if fix.files_to_modify.isEmpty then
      let fs' := if dryRun then st.fs
                 else fsAppend st.fs "security-code-recommendations.md"
                        (codeRecommendation fix)
      ({ st with fs := fs',
                 applied := st.applied
                   ++ [Applied.dastCode "security-code-recommendations.md"] }, true)
    else
      (st, false)
  else
    (st, false)

/-- One record of `fixes_data['fixes']`, dispatched on `fix['type']`
(apply_fixes.py lines 318-326); `other` covers every unrecognized type
string. -/
inductive FixProposal where
  | sast (f : SastFix)
  | dependency (f : DepFix)
  | dast (f : DastFix)
  | other (ty : PyStr)
deriving DecidableEq

/-- One iteration of the `apply_fixes` loop body: dispatch on the type
tag; an unknown type prints a message and `continue`s (`none`), known
types return the method's boolean result. -/
def applyOne (dryRun : Bool) (fix : FixProposal) (st : St) : St × Option Bool :=
  match fix with
  | FixProposal.sast f => let r := apply_sast_fix dryRun f st; (r.1, some r.2)
  | FixProposal.dependency f => let r := apply_dependency_fix dryRun f st; (r.1, some r.2)
  | FixProposal.dast f => let r := apply_dast_fix dryRun f st; (r.1, some r.2)
  | FixProposal.other _ => (st, none)

/-- The `for i, fix in enumerate(fixes, 1)` loop of
`FixApplier.apply_fixes` (lines 314-333), accumulating `success_count`. -/
def applyLoop (dryRun : Bool) : List FixProposal → St → St × Nat
  | [], st => (st, 0)
  | f :: fs, st =>
    let r := applyOne dryRun f st
    let rest := applyLoop dryRun fs r.1
    (rest.1, (if r.2 = some true then 1 else 0) + rest.2)

/-- `FixApplier.apply_fixes` (lines 295-356): run the loop and return
`(success_count, len(self.failed_fixes))`. -/
def apply_fixes (dryRun : Bool) (fixes : List FixProposal) (st : St) : St × Nat × Nat :=
  let r := applyLoop dryRun fixes st
  (r.1, r.2, r.1.failed.length)

/-! ## The scanner adapters (`scripts/parse_sarif.py`)

JSON values are embedded by `Json` (numbers as integers).  The adapters
only catch `FileNotFoundError` and `json.JSONDecodeError`; every other
exception escapes, which we model with `Except PyErr`. -/

/-- A parsed JSON value. -/
inductive Json where
  | null
  | bool (b : Bool)
  | num (n : Int)
  | str (s : PyStr)
  | arr (xs : List Json)
  | obj (kvs : List (PyStr × Json))

/-- The Python exceptions that can escape the adapters. -/
inductive PyErr where
  | attributeError
  | typeError
deriving DecidableEq

/-- First value bound to a key in a JSON object. -/
def jLookup : List (PyStr × Json) → PyStr → Option Json
  | [], _ => none
  | (k, v) :: r, n => if k = n then some v else jLookup r n

/-- Python `x.get(key, default)`: defined on dicts only — on any other
value the attribute lookup raises `AttributeError`. -/
def pyGetD (j : Json) (k : PyStr) (d : Json) : Except PyErr Json :=
  match j with
  | Json.obj kvs => Except.ok ((jLookup kvs k).getD d)
  | _ => Except.error PyErr.attributeError

/-- Python `for x in j`: lists yield their elements, dicts their keys,
strings their characters; anything else raises `TypeError`. -/
def pyIter (j : Json) : Except PyErr (List Json) :=
  match j with
  | Json.arr xs => Except.ok xs
  | Json.obj kvs => Except.ok (kvs.map fun kv => Json.str kv.1)
  | Json.str s => Except.ok (s.map fun c => Json.str [c])
  | _ => Except.error PyErr.typeError

/-- Exception-propagating sequencing (Python's implicit control flow). -/
def andThen (r : Except PyErr α) (f : α → Except PyErr β) : Except PyErr β :=
  match r with
  | Except.error e => Except.error e
  | Except.ok a => f a

@[simp] theorem andThen_ok (a : α) (f : α → Except PyErr β) :
    andThen (Except.ok a) f = f a := rfl

@[simp] theorem andThen_error (e : PyErr) (f : α → Except PyErr β) :
    andThen (Except.error e) f = Except.error e := rfl

/-- A Python `for` loop building a list, propagating any exception (the
partial results are lost when an iteration raises). -/
def mapME (f : α → Except PyErr β) : List α → Except PyErr (List β)
  | [] => Except.ok []
  | x :: xs =>
    andThen (f x) fun y =>
      andThen (mapME f xs) fun ys => Except.ok (y :: ys)

/-- `get_severity` (parse_sarif.py lines 149-160):
`severity_map.get(result.get('level', 'warning'), 'medium')`.  A dict or
list level is unhashable (`TypeError`); any other non-string level is
simply absent from the table and yields `'medium'`. -/
def get_severity (result : Json) : Except PyErr PyStr :=
  andThen (pyGetD result (("level").data) (Json.str (("warning").data))) fun level =>
    match level with
    | Json.obj _ => Except.error PyErr.typeError
    | Json.arr _ => Except.error PyErr.typeError
    | Json.str s =>
      Except.ok
        (if s = ("error").data then ("high").data
         else if s = ("warning").data then ("medium").data
         else if s = ("note").data then ("low").data
         else if s = ("info").data then ("info").data
         else ("medium").data)
    | _ => Except.ok (("medium").data)

/-- Python `needle in haystack` on strings: substring containment. -/
def pyInStr (needle : PyStr) : PyStr → Bool
  | [] => needle.isEmpty
  | c :: t => needle.isPrefixOf (c :: t) || pyInStr needle t

/-- `map_zap_severity` (parse_sarif.py lines 162-171): substring tests on
the risk description, defaulting to `'info'`. -/
def map_zap_severity (risk_desc : PyStr) : PyStr :=
  if pyInStr (("High").data) risk_desc then ("high").data
  else if pyInStr (("Medium").data) risk_desc then ("medium").data
  else if pyInStr (("Low").data) risk_desc then ("low").data
  else ("info").data

/-- A location entry built by `parse_codeql_sarif` (lines 45-55). -/
structure SarifLocation where
  file : Json
  line : Json
  column : Json
  code_snippet : Json

/-- A vulnerability dict built by `parse_codeql_sarif` (lines 35-42);
`type` is always `'sast'` and `tool` always `'CodeQL'`, so only the
varying fields are recorded. -/
structure SastVuln where
  rule_id : Json
  severity : PyStr
  message : Json
  locations : List SarifLocation

/-- The identity tuple of a SAST finding: producing tool, rule id and
first location (§3 of the spec). -/
def identityTuple (v : SastVuln) : PyStr × Json × Option SarifLocation :=
  ((("CodeQL").data), v.rule_id, v.locations.head?)

/-- The body of the `for location in result.get('locations', [])` loop
(lines 45-55). -/
def parseLocation (location : Json) : Except PyErr SarifLocation :=
  andThen (pyGetD location (("physicalLocation").data) (Json.obj [])) fun phys_loc =>
  andThen (pyGetD phys_loc (("artifactLocation").data) (Json.obj [])) fun artifact =>
  andThen (pyGetD phys_loc (("region").data) (Json.obj [])) fun region =>
  andThen (pyGetD artifact (("uri").data) (Json.str [])) fun fileJ =>
  andThen (pyGetD region (("startLine").data) (Json.num 0)) fun lineJ =>
  andThen (pyGetD region (("startColumn").data) (Json.num 0)) fun colJ =>
  andThen (pyGetD region (("snippet").data) (Json.obj [])) fun snippet =>
  andThen (pyGetD snippet (("text").data) (Json.str [])) fun snipJ =>
  Except.ok { file := fileJ, line := lineJ, column := colJ, code_snippet := snipJ }

/-- The body of the `for result in run.get('results', [])` loop
(lines 33-57). -/
def parseResult (result : Json) : Except PyErr SastVuln :=
  andThen (pyGetD result (("ruleId").data) (Json.str (("unknown").data))) fun rid =>
  andThen (get_severity result) fun sev =>
  andThen (pyGetD result (("message").data) (Json.obj [])) fun msgObj =>
  andThen (pyGetD msgObj (("text").data) (Json.str [])) fun msg =>
  andThen (pyGetD result (("locations").data) (Json.arr [])) fun locsJ =>
  andThen (pyIter locsJ) fun locsL =>
  andThen (mapME parseLocation locsL) fun locs =>
  Except.ok { rule_id := rid, severity := sev, message := msg, locations := locs }

/-- The body of the `for run in sarif_data.get('runs', [])` loop. -/
def parseRun (run : Json) : Except PyErr (List SastVuln) :=
  andThen (pyGetD run (("results").data) (Json.arr [])) fun resJ =>
  andThen (pyIter resJ) fun resL =>
  mapME parseResult resL

/-- What an adapter receives for one input file: the file may be absent,
hold undecodable JSON, or hold a parsed JSON value. -/
inductive ScanInput where
  | missing
  | badJson
  | valid (j : Json)

/-- `parse_codeql_sarif` (parse_sarif.py lines 15-64): the two handled
exceptions return the (empty) list accumulated so far; any other
exception escapes. -/
def parse_codeql_sarif : ScanInput → Except PyErr (List SastVuln)
  | ScanInput.missing => Except.ok []
  | ScanInput.badJson => Except.ok []
  | ScanInput.valid j =>
    andThen (pyGetD j (("runs").data) (Json.arr [])) fun runsJ =>
    andThen (pyIter runsJ) fun runsL =>
    andThen (mapME parseRun runsL) fun vss =>
    Except.ok vss.flatten

/-- A vulnerability dict built by `parse_safety_results` (lines 80-95).
`type`/`tool` are constant and `severity` is the literal `'high'`; the
message and location strings are pure formatting over the recorded
fields and are not repeated here. -/
structure SafetyVuln where
  id : Json
  severity : PyStr
  package : Json
  installed_version : Json
  vulnerable_spec : Json
  advisory : Json

/-- The body of the `for vuln in safety_data` loop (lines 79-96). -/
def parseSafetyRecord (v : Json) : Except PyErr SafetyVuln :=
  andThen (pyGetD v (("id").data) (Json.str (("unknown").data))) fun i =>
  andThen (pyGetD v (("package").data) (Json.str [])) fun p =>
  andThen (pyGetD v (("installed_version").data) (Json.str [])) fun iv =>
  andThen (pyGetD v (("vulnerable_spec").data) (Json.str [])) fun vs =>
  andThen (pyGetD v (("advisory").data) (Json.str [])) fun a =>
  Except.ok { id := i, severity := ("high").data, package := p,
              installed_version := iv, vulnerable_spec := vs, advisory := a }

/-- `parse_safety_results` (parse_sarif.py lines 66-103). -/
def parse_safety_results : ScanInput → Except PyErr (List SafetyVuln)
  | ScanInput.missing => Except.ok []
  | ScanInput.badJson => Except.ok []
  | ScanInput.valid j =>
    andThen (pyIter j) fun items =>
    mapME parseSafetyRecord items

/-- A minimal SARIF document: one run holding the given results
(`{"runs": [{"results": rs}]}`). -/
def mkSarifRuns (rs : List Json) : Json :=
  Json.obj [((("runs").data), Json.arr [Json.obj [((("results").data), Json.arr rs)]])]

/-! ## Dry-run frame lemmas -/

theorem apply_sast_fix_dry_fs (fix : SastFix) (st : St) :
    (apply_sast_fix true fix st).1.fs = st.fs := by
  unfold apply_sast_fix
  cases hfile : fsGet st.fs fix.file with
  | none => rfl
  | some content =>
    simp only [if_true]
    split
    · rfl
    · split <;> rfl

theorem apply_dependency_fix_dry_fs (fix : DepFix) (st : St) :
    (apply_dependency_fix true fix st).1.fs = st.fs := by
  unfold apply_dependency_fix
  cases hfile : fsGet st.fs "requirements.txt" with
  | none => rfl
  | some content => rfl

theorem apply_dast_fix_dry_fs (fix : DastFix) (st : St) :
    (apply_dast_fix true fix st).1.fs = st.fs := by
  unfold apply_dast_fix
  split
  · rfl
  · split
    · split <;> rfl
    · rfl

theorem applyOne_dry_fs (fix : FixProposal) (st : St) :
    (applyOne true fix st).1.fs = st.fs := by
  cases fix with
  | sast f => exact apply_sast_fix_dry_fs f st
  | dependency f => exact apply_dependency_fix_dry_fs f st
  | dast f => exact apply_dast_fix_dry_fs f st
  | other ty => rfl

theorem applyLoop_dry_fs (fixes : List FixProposal) :
    ∀ st : St, (applyLoop true fixes st).1.fs = st.fs := by
  induction fixes with
  | nil => intro st; rfl
  | cons f fs ih =>
    intro st
    simp only [applyLoop]
    rw [ih]
    exact applyOne_dry_fs f st

/-- C2.  A DryRun pass performs no filesystem mutation: after
`apply_fixes` with `dry_run=True` the whole filesystem — every target
file, every backup file, and the recommendations documents — is exactly
what it was before the pass, for every sequence of proposals. -/
theorem dryrun_pass_preserves_filesystem (fixes : List FixProposal) (st : St) :
    (apply_fixes true fixes st).1.fs = st.fs := by
  simp only [apply_fixes]
  exact applyLoop_dry_fs fixes st

/-! ## Loop resilience -/

theorem applyLoop_skip_other (dryRun : Bool) :
    ∀ (fixes : List FixProposal) (st : St) (ty : PyStr) (i : Nat),
      applyLoop dryRun (fixes.take i ++ FixProposal.other ty :: fixes.drop i) st
        = applyLoop dryRun fixes st := by
  intro fixes
  induction fixes with
  | nil =>
    intro st ty i
    simp [applyLoop, applyOne]
  | cons f fs ih =>
    intro st ty i
    cases i with
    | zero =>
      simp [applyLoop, applyOne]
    | succ j =>
      simp only [List.take_succ_cons, List.drop_succ_cons, List.cons_append,
        List.append_eq, applyLoop]
      rw [ih (applyOne dryRun f st).1 ty j]

theorem applyLoop_le_length (dryRun : Bool) :
    ∀ (fixes : List FixProposal) (st : St),
      (applyLoop dryRun fixes st).2 ≤ fixes.length := by
  intro fixes
  induction fixes with
  | nil => intro st; simp [applyLoop]
  | cons f fs ih =>
    intro st
    simp only [applyLoop, List.length_cons]
    have := ih (applyOne dryRun f st).1
    split <;> omega

/-- C5.  No proposal aborts the batch: an unrecognized `fix_kind` is
skipped — inserting it anywhere in the sequence leaves the entire run
(final state and success count) unchanged, so it is neither applied nor
failed and the remaining proposals are still processed; the number of
applied fixes never exceeds the number of proposals; and `apply_fixes`
reports the accumulated success count together with the final length of
`failed_fixes`. -/
theorem no_proposal_aborts_processing (dryRun : Bool)
    (fixes : List FixProposal) (st : St) (ty : PyStr) (i : Nat) :
    applyLoop dryRun (fixes.take i ++ FixProposal.other ty :: fixes.drop i) st
      = applyLoop dryRun fixes st ∧
    (applyLoop dryRun fixes st).2 ≤ fixes.length ∧
    apply_fixes dryRun fixes st
      = ((applyLoop dryRun fixes st).1, (applyLoop dryRun fixes st).2,
         (applyLoop dryRun fixes st).1.failed.length) :=
  ⟨applyLoop_skip_other dryRun fixes st ty i,
   applyLoop_le_length dryRun fixes st, rfl⟩

/-! ## SAST fix: failure on a stale line number -/

/-- C9.  In Execute mode the backup is copied before the line-range
check: a proposal whose line number exceeds the file's line count still
creates `<file>.backup` (holding the pre-run content), fails with the
invalid-line reason, and leaves the target file unmodified. -/
theorem backup_created_before_line_validation
    (fix : SastFix) (st : St) (content : PyStr)
    (hfile : fsGet st.fs fix.file = some content)
    (hline : ((linesOf content).length : Int) < fix.line) :
    (apply_sast_fix false fix st).2 = false ∧
    fsGet (apply_sast_fix false fix st).1.fs (fix.file ++ ".backup") = some content ∧
    fsGet (apply_sast_fix false fix st).1.fs fix.file = some content ∧
    (apply_sast_fix false fix st).1.failed
      = st.failed ++ [Failed.invalidLine fix.file] := by
  have hres : apply_sast_fix false fix st
      = ({ st with fs := fsSet st.fs (fix.file ++ ".backup") content,
                   failed := st.failed ++ [Failed.invalidLine fix.file] }, false) := by
    unfold apply_sast_fix
    rw [hfile]
    simp only [Bool.false_eq_true, if_false]
    rw [if_pos hline]
  rw [hres]
  refine ⟨rfl, ?_, ?_, rfl⟩
  · exact fsGet_fsSet_self st.fs _ content
  · rw [fsGet_fsSet_ne st.fs (Ne.symm (ne_append_backup fix.file)) content]
    exact hfile

/-- C9 witness. -/
theorem backup_created_before_line_validation_witness :
    (apply_sast_fix false
        { file := "a.txt", line := 99, fixed_code := ("z").data, explanation := [] }
        { fs := [("a.txt", ("x\ny\n").data)], applied := [], failed := [] }).2 = false ∧
    fsGet (apply_sast_fix false
        { file := "a.txt", line := 99, fixed_code := ("z").data, explanation := [] }
        { fs := [("a.txt", ("x\ny\n").data)], applied := [], failed := [] }).1.fs
        ("a.txt" ++ ".backup") = some (("x\ny\n").data) ∧
    fsGet (apply_sast_fix false
        { file := "a.txt", line := 99, fixed_code := ("z").data, explanation := [] }
        { fs := [("a.txt", ("x\ny\n").data)], applied := [], failed := [] }).1.fs
        "a.txt" = some (("x\ny\n").data) ∧
    (apply_sast_fix false
        { file := "a.txt", line := 99, fixed_code := ("z").data, explanation := [] }
        { fs := [("a.txt", ("x\ny\n").data)], applied := [], failed := [] }).1.failed
      = [] ++ [Failed.invalidLine "a.txt"] :=
  backup_created_before_line_validation
    { file := "a.txt", line := 99, fixed_code := ("z").data, explanation := [] }
    { fs := [("a.txt", ("x\ny\n").data)], applied := [], failed := [] }
    (("x\ny\n").data) (by decide) (by decide)

/-! ## DAST code-change proposals naming files -/

/-- C10.  A DAST proposal with `fix_type == 'code_change'` and a
nonempty `files_to_modify` falls through `apply_dast_fix` untouched: no
filesystem mutation, result `False`, nothing recorded in
`failed_fixes`; consequently a run over just this proposal reports zero
applied fixes and an unchanged failure count, so applied + failed falls
short of the number of proposals processed. -/
theorem dast_code_change_with_files_uncounted
    (dryRun : Bool) (fix : DastFix) (st : St)
    (htype : fix.fix_type = ("code_change").data)
    (hfiles : fix.files_to_modify ≠ []) :
    apply_dast_fix dryRun fix st = (st, false) ∧
    apply_fixes dryRun [FixProposal.dast fix] st = (st, 0, st.failed.length) := by
  have h1 : apply_dast_fix dryRun fix st = (st, false) := by
    unfold apply_dast_fix
    rw [htype]
    rw [if_neg (by decide), if_pos rfl,
      if_neg (by simp [List.isEmpty_iff, hfiles])]
  refine ⟨h1, ?_⟩
  simp [apply_fixes, applyLoop, applyOne, h1]

/-- C10 witness. -/
theorem dast_code_change_with_files_uncounted_witness :
    apply_dast_fix false
        { fix_type := ("code_change").data, changes := [],
          files_to_modify := [("app.py").data], message := [], url := [],
          explanation := [], confidence := [], generated_at := [] }
        { fs := [], applied := [], failed := [] }
      = ({ fs := [], applied := [], failed := [] }, false) ∧
    apply_fixes false
        [FixProposal.dast
          { fix_type := ("code_change").data, changes := [],
            files_to_modify := [("app.py").data], message := [], url := [],
            explanation := [], confidence := [], generated_at := [] }]
        { fs := [], applied := [], failed := [] }
      = ({ fs := [], applied := [], failed := [] }, 0,
         (St.failed { fs := [], applied := [], failed := [] }).length) :=
  dast_code_change_with_files_uncounted false
    { fix_type := ("code_change").data, changes := [],
      files_to_modify := [("app.py").data], message := [], url := [],
      explanation := [], confidence := [], generated_at := [] }
    { fs := [], applied := [], failed := [] }
    rfl (by decide)

/-! ## SAST fix: the line-number guard -/

/-- C3 (amended).  A CodeChange proposal whose line number exceeds the
current line count is rejected: the result is `False` with the
invalid-line failure recorded, and the target file is not modified (in
Execute mode a backup is still written first, see C9).  Line numbers
`≤ 0`, however, are not rejected by the guard — see the
counterexample `line_zero_mutates_file`. -/
theorem line_beyond_eof_rejected_without_mutation
    (dryRun : Bool) (fix : SastFix) (st : St) (content : PyStr)
    (hfile : fsGet st.fs fix.file = some content)
    (hline : ((linesOf content).length : Int) < fix.line) :
    (apply_sast_fix dryRun fix st).2 = false ∧
    fsGet (apply_sast_fix dryRun fix st).1.fs fix.file = some content ∧
    (apply_sast_fix dryRun fix st).1.failed
      = st.failed ++ [Failed.invalidLine fix.file] := by
  have hres : apply_sast_fix dryRun fix st
      = ({ st with fs := if dryRun then st.fs
                         else fsSet st.fs (fix.file ++ ".backup") content,
                   failed := st.failed ++ [Failed.invalidLine fix.file] }, false) := by
    unfold apply_sast_fix
    rw [hfile]
    simp only [Bool.false_eq_true]
    rw [if_pos hline]
  rw [hres]
  refine ⟨rfl, ?_, rfl⟩
  cases dryRun with
  | true => simpa using hfile
  | false =>
    simp only [Bool.false_eq_true, if_false]
    rw [fsGet_fsSet_ne st.fs (Ne.symm (ne_append_backup fix.file)) content]
    exact hfile

/-- C3 counterexample: a target line number of `0` — outside
`[1, line_count]` — is *not* rejected.  `lines[-1]` wraps around to the
last line, which is overwritten, and the proposal reports success. -/
theorem line_zero_mutates_file :
    (apply_sast_fix false
        { file := "a.txt", line := 0, fixed_code := ("z").data, explanation := [] }
        { fs := [("a.txt", ("x\ny\n").data)], applied := [], failed := [] }).2 = true ∧
    fsGet (apply_sast_fix false
        { file := "a.txt", line := 0, fixed_code := ("z").data, explanation := [] }
        { fs := [("a.txt", ("x\ny\n").data)], applied := [], failed := [] }).1.fs
        "a.txt" = some (("x\nz\n").data) := by
  constructor
  · decide
  · decide

/-- C3 witness. -/
theorem line_beyond_eof_rejected_without_mutation_witness :
    (apply_sast_fix true
        { file := "b.txt", line := 3, fixed_code := ("z").data, explanation := [] }
        { fs := [("b.txt", ("only\n").data)], applied := [], failed := [] }).2 = false ∧
    fsGet (apply_sast_fix true
        { file := "b.txt", line := 3, fixed_code := ("z").data, explanation := [] }
        { fs := [("b.txt", ("only\n").data)], applied := [], failed := [] }).1.fs
        "b.txt" = some (("only\n").data) ∧
    (apply_sast_fix true
        { file := "b.txt", line := 3, fixed_code := ("z").data, explanation := [] }
        { fs := [("b.txt", ("only\n").data)], applied := [], failed := [] }).1.failed
      = [] ++ [Failed.invalidLine "b.txt"] :=
  line_beyond_eof_rejected_without_mutation true
    { file := "b.txt", line := 3, fixed_code := ("z").data, explanation := [] }
    { fs := [("b.txt", ("only\n").data)], applied := [], failed := [] }
    (("only\n").data) (by decide) (by decide)

/-! ## SAST fix: Execute-mode line replacement -/

/-- C1 (amended).  In Execute mode, a CodeChange proposal on an existing
file whose target line lies in `[1, line_count]` and whose replacement
text contains no newline character succeeds, creates `<file>.backup`
byte-identical to the pre-mutation content, and rewrites the file so
that its line count is preserved, the target line holds exactly the
replacement text (plus the terminating newline the code appends), and
every other line is byte-identical to the original.  (A replacement
containing a newline splits into several lines and changes the line
count — see `multiline_replacement_changes_line_count`.) -/
theorem sast_execute_replaces_exactly_target_line
    (fix : SastFix) (st : St) (content : PyStr)
    (hfile : fsGet st.fs fix.file = some content)
    (h1 : 1 ≤ fix.line) (h2 : fix.line ≤ ((linesOf content).length : Int))
    (hnl : '\n' ∉ fix.fixed_code) :
    (apply_sast_fix false fix st).2 = true ∧
    fsGet (apply_sast_fix false fix st).1.fs (fix.file ++ ".backup")
      = some content ∧
    ∃ newContent,
      fsGet (apply_sast_fix false fix st).1.fs fix.file = some newContent ∧
      (linesOf newContent).length = (linesOf content).length ∧
      (linesOf newContent)[(fix.line - 1).toNat]?
        = some (fix.fixed_code ++ ['\n']) ∧
      ∀ j : Nat, j ≠ (fix.line - 1).toNat →
        (linesOf newContent)[j]? = (linesOf content)[j]? := by
  have hk : (fix.line - 1).toNat < (linesOf content).length := by omega
  obtain ⟨v, hv⟩ : ∃ v, pyGetIdx (linesOf content) (fix.line - 1) = some v := by
    unfold pyGetIdx
    rw [if_pos (show (0 : Int) ≤ fix.line - 1 by omega)]
    exact ⟨_, by rw [List.get?_eq_getElem?]; exact List.getElem?_eq_getElem hk⟩
  have hres : apply_sast_fix false fix st
      = ({ st with
             fs := fsSet (fsSet st.fs (fix.file ++ ".backup") content) fix.file
                     (joinLines ((linesOf content).set (fix.line - 1).toNat
                        (fix.fixed_code ++ ['\n']))),
             applied := st.applied
               ++ [Applied.sast fix.file fix.line fix.explanation] }, true) := by
    unfold apply_sast_fix
    rw [hfile]
    simp only [Bool.false_eq_true, if_false]
    rw [if_neg (show ¬ ((linesOf content).length : Int) < fix.line by omega)]
    rw [hv]
    unfold pySetIdx
    rw [if_pos (show (0 : Int) ≤ fix.line - 1 by omega)]
  have hchunk : lineChunk (fix.fixed_code ++ ['\n']) := ⟨fix.fixed_code, rfl, hnl⟩
  have hlines :
      linesOf (joinLines ((linesOf content).set (fix.line - 1).toNat
          (fix.fixed_code ++ ['\n'])))
        = (linesOf content).set (fix.line - 1).toNat (fix.fixed_code ++ ['\n']) :=
    linesOf_join _ (goodChunks_set _ (goodChunks_linesOf content) hchunk _)
  rw [hres]
  refine ⟨rfl, ?_, ?_⟩
  · rw [fsGet_fsSet_ne _ (ne_append_backup fix.file) _]
    exact fsGet_fsSet_self st.fs _ content
  · refine ⟨_, fsGet_fsSet_self _ _ _, ?_, ?_, ?_⟩
    · rw [hlines, List.length_set]
    · rw [hlines]
      exact List.getElem?_set_eq_of_lt _ hk
    · intro j hj
      rw [hlines]
      exact List.getElem?_set_ne (fun h => hj h.symm) ..

/-- C1 counterexample: the claim as stated fails for a replacement text
containing a newline.  On a 2-line file, a proposal for line 1 whose
`fixed_code` is `"a\nb"` satisfies every premise of the claim (file
exists, line within the line count), yet the rewritten file has 3
lines, so the line count is not preserved. -/
theorem multiline_replacement_changes_line_count :
    (linesOf (("x\ny\n").data)).length = 2 ∧
    fsGet (apply_sast_fix false
        { file := "a.txt", line := 1, fixed_code := ("a\nb").data,
          explanation := [] }
        { fs := [("a.txt", ("x\ny\n").data)], applied := [], failed := [] }).1.fs
        "a.txt" = some (("a\nb\ny\n").data) ∧
    (linesOf (("a\nb\ny\n").data)).length = 3 := by
  refine ⟨by decide, by decide, by decide⟩

/-- C1 witness. -/
theorem sast_execute_replaces_exactly_target_line_witness :
    (apply_sast_fix false
        { file := "a.txt", line := 2, fixed_code := ("z").data, explanation := [] }
        { fs := [("a.txt", ("x\ny\nw\n").data)], applied := [], failed := [] }).2
      = true ∧
    fsGet (apply_sast_fix false
        { file := "a.txt", line := 2, fixed_code := ("z").data, explanation := [] }
        { fs := [("a.txt", ("x\ny\nw\n").data)], applied := [], failed := [] }).1.fs
        ("a.txt" ++ ".backup") = some (("x\ny\nw\n").data) := by
  have h := sast_execute_replaces_exactly_target_line
    { file := "a.txt", line := 2, fixed_code := ("z").data, explanation := [] }
    { fs := [("a.txt", ("x\ny\nw\n").data)], applied := [], failed := [] }
    (("x\ny\nw\n").data) (by decide) (by decide) (by decide) (by decide)
  exact ⟨h.1, h.2.1⟩

/-! ## Dependency fix: manifest matching -/

theorem depLoop_no_match (dryRun : Bool) (package newLine : PyStr)
    {lines : List PyStr}
    (h : ∀ l ∈ lines, depMatches package (pyStrip l) = false) :
    depLoop dryRun package newLine lines = (lines, false) := by
  induction lines with
  | nil => rfl
  | cons l ls ih =>
    have hl := h l (List.mem_cons_self l ls)
    simp only [depLoop, hl, Bool.false_eq_true, if_false]
    rw [ih fun x hx => h x (List.mem_cons_of_mem l hx)]

theorem depLoop_first_match (package newLine : PyStr)
    (l₁ : List PyStr) (lm : PyStr) (l₂ : List PyStr)
    (h₁ : ∀ l ∈ l₁, depMatches package (pyStrip l) = false)
    (hm : depMatches package (pyStrip lm) = true) :
    depLoop false package newLine (l₁ ++ lm :: l₂)
      = (l₁ ++ (newLine ++ ['\n']) :: l₂, true) := by
  induction l₁ with
  | nil =>
    simp [depLoop, hm]
  | cons l ls ih =>
    have hl := h₁ l (List.mem_cons_self l ls)
    simp only [List.cons_append, List.append_eq, depLoop, hl,
      Bool.false_eq_true, if_false]
    rw [ih fun x hx => h₁ x (List.mem_cons_of_mem l hx)]

/-- C4 (amended).  `apply_dependency_fix` in Execute mode on an existing
manifest: a line matches only when its stripped text starts with the
exact package name followed immediately by at least one
version-constraint operator character (`>`, `=`, `<`, `!`) — so
`requests` never matches a `requests-toolbelt` line, but a bare
`package` line with no operator does *not* match either (see the
counterexample: the package is then appended and the manifest ends up
with a duplicate entry).  The first matching line is replaced in place
by the normalized `package>=recommended_version` entry; when no line
matches, that entry is appended after the existing lines; both cases
report Applied. -/
theorem dependency_bump_match_and_append
    (fix : DepFix) (st : St) (content : PyStr)
    (hfile : fsGet st.fs "requirements.txt" = some content) :
    (∀ rest : PyStr,
      depMatches (("requests").data) ((("requests-toolbelt").data) ++ rest)
        = false) ∧
    (∀ p : PyStr, depMatches p p = false) ∧
    ((∀ l ∈ linesOf content, depMatches fix.package (pyStrip l) = false) →
      (apply_dependency_fix false fix st).2 = true ∧
      fsGet (apply_dependency_fix false fix st).1.fs "requirements.txt"
        = some (joinLines (linesOf content ++ [depEntry fix ++ ['\n']]))) ∧
    (∀ (l₁ : List PyStr) (lm : PyStr) (l₂ : List PyStr),
      linesOf content = l₁ ++ lm :: l₂ →
      (∀ l ∈ l₁, depMatches fix.package (pyStrip l) = false) →
      depMatches fix.package (pyStrip lm) = true →
      (apply_dependency_fix false fix st).2 = true ∧
      fsGet (apply_dependency_fix false fix st).1.fs "requirements.txt"
        = some (joinLines (l₁ ++ (depEntry fix ++ ['\n']) :: l₂))) := by
  refine ⟨?_, ?_, ?_, ?_⟩
  · intro rest
    have hdecomp : ((("requests-toolbelt").data : PyStr)) ++ rest
        = (("requests").data : PyStr)
            ++ (((("-toolbelt").data : PyStr)) ++ rest) := by
      rw [show ((("requests-toolbelt").data : PyStr))
          = (("requests").data : PyStr) ++ (("-toolbelt").data : PyStr) from rfl,
        List.append_assoc]
    unfold depMatches
    rw [hdecomp, List.drop_left]
    simp
  · intro p
    simp [depMatches, List.drop_length]
  · intro hno
    have hloop := depLoop_no_match false fix.package (depEntry fix) hno
    have hres : apply_dependency_fix false fix st
        = ({ st with
               fs := fsSet (fsSet st.fs "requirements.txt.backup" content)
                       "requirements.txt"
                       (joinLines (linesOf content ++ [depEntry fix ++ ['\n']])),
               applied := st.applied
                 ++ [Applied.dependency fix.package fix.current_version
                       fix.recommended_version fix.explanation] }, true) := by
      unfold apply_dependency_fix
      rw [hfile]
      simp only [Bool.false_eq_true, if_false]
      rw [hloop]
      simp
    rw [hres]
    exact ⟨rfl, fsGet_fsSet_self _ _ _⟩
  · intro l₁ lm l₂ hsplit h₁ hm
    have hloop := depLoop_first_match fix.package (depEntry fix) l₁ lm l₂ h₁ hm
    have hres : apply_dependency_fix false fix st
        = ({ st with
               fs := fsSet (fsSet st.fs "requirements.txt.backup" content)
                       "requirements.txt"
                       (joinLines (l₁ ++ (depEntry fix ++ ['\n']) :: l₂)),
               applied := st.applied
                 ++ [Applied.dependency fix.package fix.current_version
                       fix.recommended_version fix.explanation] }, true) := by
      unfold apply_dependency_fix
      rw [hfile]
      simp only [Bool.false_eq_true, if_false]
      rw [hsplit, hloop]
      simp
    rw [hres]
    exact ⟨rfl, fsGet_fsSet_self _ _ _⟩

/-- C4 counterexample: a bare `flask` line (package name with no
version-constraint operator) is *not* matched by the search — the regex
demands at least one operator character — so the proposal appends a new
entry and the manifest ends up with two `flask` entries. -/
theorem bare_package_line_duplicated :
    depMatches (("flask").data) (pyStrip (("flask\n").data)) = false ∧
    fsGet (apply_dependency_fix false
        { package := ("flask").data, current_version := ("1.0").data,
          recommended_version := ("2.0").data, explanation := [] }
        { fs := [("requirements.txt", ("flask\n").data)],
          applied := [], failed := [] }).1.fs "requirements.txt"
      = some (("flask\nflask>=2.0\n").data) ∧
    (linesOf (("flask\nflask>=2.0\n").data)).countP
        (fun l => (("flask").data).isPrefixOf (pyStrip l)) = 2 := by
  refine ⟨by decide, by decide, by decide⟩

/-- C4 witness. -/
theorem dependency_bump_match_and_append_witness :
    (apply_dependency_fix false
        { package := ("flask").data, current_version := ("1.0").data,
          recommended_version := ("2.0").data, explanation := [] }
        { fs := [("requirements.txt", ("flask==1.0\nrequests==2.0\n").data)],
          applied := [], failed := [] }).2 = true ∧
    fsGet (apply_dependency_fix false
        { package := ("flask").data, current_version := ("1.0").data,
          recommended_version := ("2.0").data, explanation := [] }
        { fs := [("requirements.txt", ("flask==1.0\nrequests==2.0\n").data)],
          applied := [], failed := [] }).1.fs "requirements.txt"
      = some (("flask>=2.0\nrequests==2.0\n").data) := by
  have h := (dependency_bump_match_and_append
      { package := ("flask").data, current_version := ("1.0").data,
        recommended_version := ("2.0").data, explanation := [] }
      { fs := [("requirements.txt", ("flask==1.0\nrequests==2.0\n").data)],
        applied := [], failed := [] }
      (("flask==1.0\nrequests==2.0\n").data) (by decide)).2.2.2
    [] (("flask==1.0\n").data) [(("requests==2.0\n").data)]
    (by decide) (by simp) (by decide)
  exact ⟨h.1, h.2.trans (by decide)⟩

/-! ## Aggregator: duplicate findings -/

theorem mapME_append (f : α → Except PyErr β) :
    ∀ (l₁ : List α) (ys₁ : List β), mapME f l₁ = Except.ok ys₁ →
      ∀ (l₂ : List α) (ys₂ : List β), mapME f l₂ = Except.ok ys₂ →
        mapME f (l₁ ++ l₂) = Except.ok (ys₁ ++ ys₂) := by
  intro l₁
  induction l₁ with
  | nil =>
    intro ys₁ h₁ l₂ ys₂ h₂
    simp only [mapME] at h₁
    cases h₁
    simpa using h₂
  | cons a r ih =>
    intro ys₁ h₁ l₂ ys₂ h₂
    cases hfa : f a with
    | error e =>
      rw [mapME, hfa, andThen_error] at h₁
      cases h₁
    | ok y =>
      rw [mapME, hfa, andThen_ok] at h₁
      cases hr : mapME f r with
      | error e =>
        rw [hr, andThen_error] at h₁
        cases h₁
      | ok ys =>
        rw [hr, andThen_ok] at h₁
        cases h₁
        have hrest := ih ys hr l₂ ys₂ h₂
        simp [mapME, hfa, hrest]

/-- C6 (amended).  The merge pass performs no deduplication: for any
list of result records that all parse, `parse_codeql_sarif` emits one
vulnerability per record, in input order, dropping none; in particular,
appending two records that share the identity tuple (tool, rule id,
first location) — whether byte-identical or differing in other fields —
to any group keeps *both* in the output.  (`main` only concatenates the
adapter outputs, so the duplicates reach the merged report
unchanged.) -/
theorem duplicate_results_both_kept
    (rs : List Json) (vs : List SastVuln) (r₁ r₂ : Json) (v₁ v₂ : SastVuln)
    (hall : mapME parseResult rs = Except.ok vs)
    (h₁ : parseResult r₁ = Except.ok v₁)
    (h₂ : parseResult r₂ = Except.ok v₂)
    (_hid : identityTuple v₁ = identityTuple v₂) :
    parse_codeql_sarif (ScanInput.valid (mkSarifRuns rs)) = Except.ok vs ∧
    parse_codeql_sarif (ScanInput.valid (mkSarifRuns (rs ++ [r₁, r₂])))
      = Except.ok (vs ++ [v₁, v₂]) := by
  have key : ∀ (xs : List Json) (ws : List SastVuln),
      mapME parseResult xs = Except.ok ws →
      parse_codeql_sarif (ScanInput.valid (mkSarifRuns xs)) = Except.ok ws := by
    intro xs ws h
    simp [parse_codeql_sarif, mkSarifRuns, pyGetD, jLookup, pyIter, parseRun,
      mapME, h]
  refine ⟨key rs vs hall, ?_⟩
  exact key (rs ++ [r₁, r₂]) (vs ++ [v₁, v₂])
    (mapME_append parseResult rs vs hall [r₁, r₂] [v₁, v₂]
      (by simp [mapME, h₁, h₂]))

/-- C6 counterexample: one SARIF run holding the same result twice
yields an output group with *two* records carrying the identical
identity tuple (tool `CodeQL`, rule `r-1`, no location) — not exactly
one as the claim demands. -/
theorem duplicate_identity_not_unique :
    Except.map (List.map identityTuple)
        (parse_codeql_sarif (ScanInput.valid (mkSarifRuns
          [Json.obj [((("ruleId").data), Json.str (("r-1").data))],
           Json.obj [((("ruleId").data), Json.str (("r-1").data))]])))
      = Except.ok
          [((("CodeQL").data), Json.str (("r-1").data), none),
           ((("CodeQL").data), Json.str (("r-1").data), none)] ∧
    Except.map List.length
        (parse_codeql_sarif (ScanInput.valid (mkSarifRuns
          [Json.obj [((("ruleId").data), Json.str (("r-1").data))],
           Json.obj [((("ruleId").data), Json.str (("r-1").data))]])))
      = Except.ok 2 := by
  exact ⟨rfl, rfl⟩

/-- C6 witness: a group holding an unrelated record plus two *distinct*
records that share the identity tuple (same rule `r-1`, no location,
different messages) — all three reach the output, the identity-sharing
pair in input order. -/
theorem duplicate_results_both_kept_witness :
    parse_codeql_sarif (ScanInput.valid (mkSarifRuns
        [Json.obj [((("ruleId").data), Json.str (("other").data))]]))
      = Except.ok
          [{ rule_id := Json.str (("other").data), severity := ("medium").data,
             message := Json.str [], locations := [] }] ∧
    parse_codeql_sarif (ScanInput.valid (mkSarifRuns
        ([Json.obj [((("ruleId").data), Json.str (("other").data))]]
          ++ [Json.obj [((("ruleId").data), Json.str (("r-1").data)),
                ((("message").data), Json.obj [((("text").data),
                  Json.str (("first").data))])],
              Json.obj [((("ruleId").data), Json.str (("r-1").data)),
                ((("message").data), Json.obj [((("text").data),
                  Json.str (("second").data))])]])))
      = Except.ok
          ([{ rule_id := Json.str (("other").data), severity := ("medium").data,
              message := Json.str [], locations := [] }]
            ++ [{ rule_id := Json.str (("r-1").data),
                  severity := ("medium").data,
                  message := Json.str (("first").data), locations := [] },
                { rule_id := Json.str (("r-1").data),
                  severity := ("medium").data,
                  message := Json.str (("second").data), locations := [] }]) :=
  duplicate_results_both_kept
    [Json.obj [((("ruleId").data), Json.str (("other").data))]]
    [{ rule_id := Json.str (("other").data), severity := ("medium").data,
       message := Json.str [], locations := [] }]
    (Json.obj [((("ruleId").data), Json.str (("r-1").data)),
      ((("message").data), Json.obj [((("text").data),
        Json.str (("first").data))])])
    (Json.obj [((("ruleId").data), Json.str (("r-1").data)),
      ((("message").data), Json.obj [((("text").data),
        Json.str (("second").data))])])
    { rule_id := Json.str (("r-1").data), severity := ("medium").data,
      message := Json.str (("first").data), locations := [] }
    { rule_id := Json.str (("r-1").data), severity := ("medium").data,
      message := Json.str (("second").data), locations := [] }
    rfl rfl rfl rfl

/-! ## Adapters: missing input, bad JSON, corrupt records -/

theorem mapME_error_of_mem (f : α → Except PyErr β) :
    ∀ (l : List α) (x : α), x ∈ l → ∀ e : PyErr, f x = Except.error e →
      ∃ e', mapME f l = Except.error e' := by
  intro l
  induction l with
  | nil => intro x hx; cases hx
  | cons a r ih =>
    intro x hx e hfx
    cases hax : f a with
    | error e₂ => exact ⟨e₂, by simp [mapME, hax]⟩
    | ok y =>
      rcases List.mem_cons.1 hx with rfl | hxr
      · rw [hax] at hfx; cases hfx
      · obtain ⟨e', he'⟩ := ih x hxr e hfx
        exact ⟨e', by simp [mapME, hax, he']⟩

/-- C7 (amended).  A missing input file or undecodable JSON makes either
adapter log and return the empty sequence, without raising.  A corrupt
record inside an otherwise-valid batch, however, is *not* skipped: any
non-object element of the array raises `AttributeError` at the first
`.get` call, the exception escapes the adapter, and the whole batch —
including its valid records — is lost. -/
theorem adapters_recover_files_but_not_records
    (pre post : List Json) (bad : Json) :
    parse_safety_results ScanInput.missing = Except.ok [] ∧
    parse_safety_results ScanInput.badJson = Except.ok [] ∧
    parse_codeql_sarif ScanInput.missing = Except.ok [] ∧
    parse_codeql_sarif ScanInput.badJson = Except.ok [] ∧
    ((∀ kvs, bad ≠ Json.obj kvs) →
      ∃ e, parse_safety_results (ScanInput.valid (Json.arr (pre ++ bad :: post)))
        = Except.error e) := by
  refine ⟨rfl, rfl, rfl, rfl, ?_⟩
  intro hbad
  have hrec : parseSafetyRecord bad = Except.error PyErr.attributeError := by
    cases bad with
    | obj kvs => exact absurd rfl (hbad kvs)
    | null => rfl
    | bool b => rfl
    | num n => rfl
    | str s => rfl
    | arr xs => rfl
  obtain ⟨e', he'⟩ :=
    mapME_error_of_mem parseSafetyRecord (pre ++ bad :: post) bad
      (by simp) PyErr.attributeError hrec
  exact ⟨e', by simp [parse_safety_results, pyIter, he']⟩

/-- C7 counterexample: a valid JSON batch containing one good record and
one corrupt (non-object) record makes `parse_safety_results` raise
`AttributeError` — the batch is aborted, not skipped-and-continued, so
the adapter does raise on malformed input. -/
theorem corrupt_record_aborts_batch :
    parse_safety_results
        (ScanInput.valid (Json.arr [Json.obj [], Json.str (("oops").data)]))
      = Except.error PyErr.attributeError := rfl

/-- C7 witness. -/
theorem adapters_recover_files_but_not_records_witness :
    ∃ e, parse_safety_results
        (ScanInput.valid (Json.arr
          ([Json.obj []] ++ Json.str (("x").data) :: [])))
      = Except.error e :=
  (adapters_recover_files_but_not_records [Json.obj []] []
      (Json.str (("x").data))).2.2.2.2
    (fun _ h => Json.noConfusion h)

/-! ## Severity normalization defaults -/

/-- C8 (amended).  The adapters do not share a single Medium default:
the CodeQL adapter maps any `level` outside its table
(`error`/`warning`/`note`/`info`) to `medium`; the ZAP adapter maps any
risk description containing none of `High`/`Medium`/`Low` to `info`,
not medium; and the Safety adapter assigns the constant `high` to every
record, consulting no table at all. -/
theorem severity_defaults_by_adapter
    (lvl risk : PyStr) (kvs : List (PyStr × Json))
    (h1 : lvl ≠ ("error").data) (h2 : lvl ≠ ("warning").data)
    (h3 : lvl ≠ ("note").data) (h4 : lvl ≠ ("info").data)
    (hh : pyInStr (("High").data) risk = false)
    (hm : pyInStr (("Medium").data) risk = false)
    (hl : pyInStr (("Low").data) risk = false) :
    get_severity (Json.obj [((("level").data), Json.str lvl)])
      = Except.ok (("medium").data) ∧
    map_zap_severity risk = ("info").data ∧
    Except.map SafetyVuln.severity (parseSafetyRecord (Json.obj kvs))
      = Except.ok (("high").data) := by
  refine ⟨?_, ?_, ?_⟩
  · have hget : pyGetD (Json.obj [((("level").data), Json.str lvl)])
        (("level").data) (Json.str (("warning").data))
        = Except.ok (Json.str lvl) := rfl
    unfold get_severity
    rw [hget, andThen_ok]
    simp only [if_neg h1, if_neg h2, if_neg h3, if_neg h4]
  · simp [map_zap_severity, hh, hm, hl]
  · simp [parseSafetyRecord, pyGetD, Except.map]

/-- C8 counterexample: the ZAP adapter normalizes the unknown risk
description `Critical` to `info`, not to `medium` as the claim
requires. -/
theorem zap_unknown_severity_is_info :
    map_zap_severity (("Critical").data) = ("info").data ∧
    (("info").data : PyStr) ≠ ("medium").data := by
  exact ⟨by decide, by decide⟩

/-- C8 witness. -/
theorem severity_defaults_by_adapter_witness :
    get_severity (Json.obj [((("level").data), Json.str (("fatal").data))])
      = Except.ok (("medium").data) ∧
    map_zap_severity (("Informational").data) = ("info").data ∧
    Except.map SafetyVuln.severity (parseSafetyRecord (Json.obj []))
      = Except.ok (("high").data) :=
  severity_defaults_by_adapter (("fatal").data) (("Informational").data) []
    (by decide) (by decide) (by decide) (by decide)
    (by decide) (by decide) (by decide)
